import Mathlib

/-!
Shallow embedding of the money-movement and aggregation core of a
personal-finance REST backend, together with proofs settling the frozen
claims about it.  Each definition is translated from one concrete place in
the JavaScript source; the file comments name the route handler and the
behaviour being captured.  Money amounts are modelled as rationals,
identifiers as naturals, dates as integers (day ordinals).
-/

namespace FinT

/-! ## Transfer subsystem (src/routes/transfers.js)

The account rows carry exactly the columns the transfer handler reads:
account_id, user_id, current_balance and is_active.
-/

structure Account where
  account_id : Nat
  user_id : Nat
  current_balance : ℚ
  is_active : Bool
deriving DecidableEq

structure TransferRow where
  from_account_id : Nat
  to_account_id : Nat
  amount : ℚ
  fee_amount : ℚ
deriving DecidableEq

structure TransferDB where
  accounts : List Account
  transfers : List TransferRow
deriving DecidableEq

/-- Body of POST /transfers: the caller supplies the source account, the
recipient user, the amount and an optional fee.  There is no destination
account field; the handler derives it. -/
structure TransferReq where
  fromAccountId : Nat
  toUserId : Nat
  amount : ℚ
  feeAmount : ℚ
deriving DecidableEq

/-- The guarded failures of the create-transfer handler, in the order the
route can produce them. -/
inductive TransferError
  | selfTransferUser
  | sourceNotFound
  | recipientNoAccounts
  | notOwner
  | insufficientBalance
  | sameAccount
deriving DecidableEq

/-- Helper for the SQL ORDER BY account_id ASC LIMIT 1: the row with the
least account_id (first such row on ties). -/
def minByAccountId (a : Account) : List Account → Account
  | [] => a
  | b :: bs => if b.account_id < a.account_id then minByAccountId b bs else minByAccountId a bs

/-- transfers.js lines 240-246: the destination account is the row of the
accounts table with user_id = toUserId and the least account_id.  The query
has no is_active filter. -/
def recipientAccount (db : TransferDB) (toUserId : Nat) : Option Account :=
  match db.accounts.filter (fun a => a.user_id == toUserId) with
  | [] => none
  | a :: rest => some (minByAccountId a rest)

/-- Modelled from the spec: the balance updates fired on commit of the
transfer insert are performed by database triggers whose SQL is not part of
the repository source (transfers.js line 328 only notes that "triggers will
automatically update account balances").  Per the spec, the source account
balance decreases by amount + feeAmount and the destination account balance
increases by amount. -/
def updAccount (fromId toId : Nat) (amount fee : ℚ) (a : Account) : Account :=
  if a.account_id == fromId then
    { a with current_balance := a.current_balance - (amount + fee) }
  else if a.account_id == toId then
    { a with current_balance := a.current_balance + amount }
  else a

def applyTransferBalances (fromId toId : Nat) (amount fee : ℚ) (accounts : List Account) :
    List Account :=
  accounts.map (updAccount fromId toId amount fee)

structure TransferOutcome where
  response : Except TransferError TransferRow
  db : TransferDB

/-- POST /transfers (transfers.js lines 194-374), with the guards in source
order: same-user check (line 223), source account lookup (line 231) and its
emptiness check (line 259), recipient account derivation (line 240) and its
emptiness check (line 266), ownership check (line 286), balance check
(line 295), same-account check (line 303), then the insert and commit
(lines 311-329). -/
def createTransfer (userId : Nat) (req : TransferReq) (db : TransferDB) : TransferOutcome :=
  if userId == req.toUserId then ⟨.error .selfTransferUser, db⟩
  else
    match db.accounts.find? (fun a => a.account_id == req.fromAccountId),
          recipientAccount db req.toUserId with
    | none, _ => ⟨.error .sourceNotFound, db⟩
    | some _, none => ⟨.error .recipientNoAccounts, db⟩
    | some fromAccount, some toAccount =>
      if fromAccount.user_id != userId then ⟨.error .notOwner, db⟩
      else
        if fromAccount.current_balance < req.amount + req.feeAmount then
          ⟨.error .insufficientBalance, db⟩
        else if req.fromAccountId == toAccount.account_id then ⟨.error .sameAccount, db⟩
        else
          let row : TransferRow :=
            ⟨req.fromAccountId, toAccount.account_id, req.amount, req.feeAmount⟩
          ⟨.ok row,
           ⟨applyTransferBalances req.fromAccountId toAccount.account_id
              req.amount req.feeAmount db.accounts,
            db.transfers ++ [row]⟩⟩

/-- Balance of the first account row with the given id, as the handler reads
it back after commit (transfers.js lines 332-335). -/
def getBalance (db : TransferDB) (accountId : Nat) : Option ℚ :=
  (db.accounts.find? (fun a => a.account_id == accountId)).map (·.current_balance)

def sumBalances (db : TransferDB) : ℚ :=
  (db.accounts.map (·.current_balance)).sum

def sumFees (db : TransferDB) : ℚ :=
  (db.transfers.map (·.fee_amount)).sum

/-- A sequence of create-transfer requests, each a caller id paired with a
request body, applied in order. -/
def runTransfers (reqs : List (Nat × TransferReq)) (db : TransferDB) : TransferDB :=
  reqs.foldl (fun d p => (createTransfer p.1 p.2 d).db) db

/-! ### Helper lemmas about the destination-account derivation -/

theorem minByAccountId_mem (a : Account) (l : List Account) :
    minByAccountId a l ∈ a :: l := by
  induction l generalizing a with
  | nil => simp [minByAccountId]
  | cons b bs ih =>
      rw [minByAccountId]
      split
      · exact List.mem_cons_of_mem a (ih b)
      · rcases List.mem_cons.mp (ih a) with h1 | h1
        · simp [h1]
        · exact List.mem_cons_of_mem a (List.mem_cons_of_mem b h1)

theorem minByAccountId_le (a : Account) (l : List Account) :
    ∀ b ∈ a :: l, (minByAccountId a l).account_id ≤ b.account_id := by
  induction l generalizing a with
  | nil =>
      intro b hb
      simp only [List.mem_cons, List.not_mem_nil, or_false] at hb
      simp [minByAccountId, hb]
  | cons c cs ih =>
      intro b hb
      rw [minByAccountId]
      rcases List.mem_cons.mp hb with rfl | h1
      · split
        · next hlt => exact le_trans (ih c c (by simp)) (le_of_lt hlt)
        · exact ih b b (by simp)
      · rcases List.mem_cons.mp h1 with rfl | h2
        · split
          · exact ih b b (by simp)
          · next hnlt => exact le_trans (ih a a (by simp)) (le_of_not_lt hnlt)
        · split
          · exact ih c b (List.mem_cons_of_mem c h2)
          · exact ih a b (List.mem_cons_of_mem a h2)

theorem recipientAccount_some (db : TransferDB) (u : Nat) (x : Account)
    (h : recipientAccount db u = some x) :
    x ∈ db.accounts ∧ x.user_id = u := by
  unfold recipientAccount at h
  rcases hfl : db.accounts.filter (fun a => a.user_id == u) with _ | ⟨a, rest⟩
  · rw [hfl] at h
    simp at h
  · rw [hfl] at h
    simp only [Option.some.injEq] at h
    have hmem : x ∈ a :: rest := h ▸ minByAccountId_mem a rest
    have hx : x ∈ db.accounts.filter (fun a => a.user_id == u) := by
      rw [hfl]; exact hmem
    have := List.mem_filter.mp hx
    exact ⟨this.1, by simpa using this.2⟩

theorem recipientAccount_min (db : TransferDB) (u : Nat) (x : Account)
    (h : recipientAccount db u = some x) :
    ∀ b ∈ db.accounts, b.user_id = u → x.account_id ≤ b.account_id := by
  intro b hb hbu
  unfold recipientAccount at h
  have hbf : b ∈ db.accounts.filter (fun a => a.user_id == u) :=
    List.mem_filter.mpr ⟨hb, by simp [hbu]⟩
  rcases hfl : db.accounts.filter (fun a => a.user_id == u) with _ | ⟨a, rest⟩
  · rw [hfl] at hbf
    simp at hbf
  · rw [hfl] at h
    simp only [Option.some.injEq] at h
    rw [hfl] at hbf
    exact h ▸ minByAccountId_le a rest b hbf

theorem recipientAccount_isSome (db : TransferDB) (u : Nat)
    (h : ∃ b ∈ db.accounts, b.user_id = u) :
    (recipientAccount db u).isSome := by
  obtain ⟨b, hb, hbu⟩ := h
  unfold recipientAccount
  have hbf : b ∈ db.accounts.filter (fun a => a.user_id == u) :=
    List.mem_filter.mpr ⟨hb, by simp [hbu]⟩
  rcases hfl : db.accounts.filter (fun a => a.user_id == u) with _ | ⟨a, rest⟩
  · rw [hfl] at hbf
    simp at hbf
  · rw [hfl]
    simp

/-! ### Characterization of the handler outcome -/

theorem createTransfer_ok (c : Nat) (req : TransferReq) (db : TransferDB) (row : TransferRow)
    (h : (createTransfer c req db).response = .ok row) :
    ∃ fa ta,
      db.accounts.find? (fun a => a.account_id == req.fromAccountId) = some fa ∧
      recipientAccount db req.toUserId = some ta ∧
      c ≠ req.toUserId ∧ fa.user_id = c ∧
      req.amount + req.feeAmount ≤ fa.current_balance ∧
      req.fromAccountId ≠ ta.account_id ∧
      row = ⟨req.fromAccountId, ta.account_id, req.amount, req.feeAmount⟩ ∧
      (createTransfer c req db).db =
        ⟨applyTransferBalances req.fromAccountId ta.account_id req.amount req.feeAmount
           db.accounts,
         db.transfers ++ [row]⟩ := by
  unfold createTransfer at h ⊢
  split at h
  · next hself => simp at h
  · next hself =>
      split at h
      · simp at h
      · simp at h
      · rename_i fromAccount toAccount hfind hrec
        split at h
        · simp at h
        · rename_i hown
          split at h
          · simp at h
          · rename_i hbal
            split at h
            · simp at h
            · rename_i hsame
              simp only at h
              rw [Except.ok.injEq] at h
              refine ⟨fromAccount, toAccount, hfind, hrec, ?_, ?_, ?_, ?_, h.symm, ?_⟩
              · simpa using hself
              · simpa using hown
              · exact le_of_not_lt hbal
              · simpa using hsame
              · simp [hself, hfind, hrec, hown, hbal, hsame, ← h]

theorem createTransfer_db_eq (c : Nat) (req : TransferReq) (db : TransferDB) :
    (createTransfer c req db).db = db ∨
      ∃ row, (createTransfer c req db).response = .ok row := by
  unfold createTransfer
  split
  · exact Or.inl rfl
  · split
    · exact Or.inl rfl
    · exact Or.inl rfl
    · split
      · exact Or.inl rfl
      · split
        · exact Or.inl rfl
        · split
          · exact Or.inl rfl
          · exact Or.inr ⟨_, rfl⟩

theorem createTransfer_error_db (c : Nat) (req : TransferReq) (db : TransferDB)
    (e : TransferError) (h : (createTransfer c req db).response = .error e) :
    (createTransfer c req db).db = db := by
  rcases createTransfer_db_eq c req db with h1 | ⟨row, h2⟩
  · exact h1
  · rw [h2] at h
    exact absurd h (by simp)

/-! ### Balance conservation machinery -/

theorem updAccount_account_id (fromId toId : Nat) (amt fee : ℚ) (a : Account) :
    (updAccount fromId toId amt fee a).account_id = a.account_id := by
  unfold updAccount
  split
  · rfl
  · split <;> rfl

theorem updAccount_balance_from (fromId toId : Nat) (amt fee : ℚ) (a : Account)
    (h : a.account_id = fromId) :
    (updAccount fromId toId amt fee a).current_balance
      = a.current_balance - (amt + fee) := by
  simp [updAccount, h]

theorem updAccount_balance_to (fromId toId : Nat) (amt fee : ℚ) (a : Account)
    (h : a.account_id = toId) (hne : a.account_id ≠ fromId) :
    (updAccount fromId toId amt fee a).current_balance = a.current_balance + amt := by
  have hne2 : toId ≠ fromId := fun hc => hne (h.trans hc)
  simp [updAccount, h, hne2]

theorem updAccount_balance_other (fromId toId : Nat) (amt fee : ℚ) (a : Account)
    (h1 : a.account_id ≠ fromId) (h2 : a.account_id ≠ toId) :
    (updAccount fromId toId amt fee a).current_balance = a.current_balance := by
  simp [updAccount, h1, h2]

theorem applyTransferBalances_account_id (fromId toId : Nat) (amt fee : ℚ) (l : List Account) :
    (applyTransferBalances fromId toId amt fee l).map (·.account_id)
      = l.map (·.account_id) := by
  unfold applyTransferBalances
  rw [List.map_map]
  apply List.map_congr_left
  intro a _
  exact updAccount_account_id fromId toId amt fee a

theorem sum_applyTransferBalances (fromId toId : Nat) (amt fee : ℚ) (l : List Account)
    (hne : fromId ≠ toId) :
    ((applyTransferBalances fromId toId amt fee l).map (·.current_balance)).sum
      = (l.map (·.current_balance)).sum
        - (amt + fee) * (l.countP (fun a => a.account_id == fromId) : ℚ)
        + amt * (l.countP (fun a => a.account_id == toId) : ℚ) := by
  induction l with
  | nil => simp [applyTransferBalances]
  | cons a as ih =>
      have hstep : ((applyTransferBalances fromId toId amt fee (a :: as)).map
          (·.current_balance)).sum
          = (updAccount fromId toId amt fee a).current_balance
            + ((applyTransferBalances fromId toId amt fee as).map (·.current_balance)).sum := by
        simp [applyTransferBalances]
      rw [hstep, ih]
      by_cases h1 : a.account_id = fromId
      · have h2 : a.account_id ≠ toId := by rw [h1]; exact hne
        rw [updAccount_balance_from fromId toId amt fee a h1]
        have hc1 : (a :: as).countP (fun a => a.account_id == fromId)
            = as.countP (fun a => a.account_id == fromId) + 1 := by
          simp [List.countP_cons, h1]
        have hc2 : (a :: as).countP (fun a => a.account_id == toId)
            = as.countP (fun a => a.account_id == toId) := by
          simp [List.countP_cons, h2]
        rw [hc1, hc2, List.map_cons, List.sum_cons]
        push_cast
        ring
      · by_cases h2 : a.account_id = toId
        · rw [updAccount_balance_to fromId toId amt fee a h2 h1]
          have hc1 : (a :: as).countP (fun a => a.account_id == fromId)
              = as.countP (fun a => a.account_id == fromId) := by
            simp [List.countP_cons, h1]
          have hc2 : (a :: as).countP (fun a => a.account_id == toId)
              = as.countP (fun a => a.account_id == toId) + 1 := by
            simp [List.countP_cons, h2]
          rw [hc1, hc2, List.map_cons, List.sum_cons]
          push_cast
          ring
        · rw [updAccount_balance_other fromId toId amt fee a h1 h2]
          have hc1 : (a :: as).countP (fun a => a.account_id == fromId)
              = as.countP (fun a => a.account_id == fromId) := by
            simp [List.countP_cons, h1]
          have hc2 : (a :: as).countP (fun a => a.account_id == toId)
              = as.countP (fun a => a.account_id == toId) := by
            simp [List.countP_cons, h2]
          rw [hc1, hc2, List.map_cons, List.sum_cons]
          ring

theorem countP_account_eq_one (l : List Account) (x : Account) (idval : Nat)
    (hnd : (l.map (·.account_id)).Nodup) (hmem : x ∈ l) (hx : x.account_id = idval) :
    l.countP (fun a => a.account_id == idval) = 1 := by
  have hmap : l.countP (fun a => a.account_id == idval)
      = (l.map (·.account_id)).countP (fun n => n == idval) := by
    rw [List.countP_map]
    rfl
  have hcount : (l.map (·.account_id)).countP (fun n => n == idval)
      = (l.map (·.account_id)).count idval := rfl
  have hle : (l.map (·.account_id)).count idval ≤ 1 :=
    List.nodup_iff_count_le_one.mp hnd idval
  have hpos : 0 < (l.map (·.account_id)).count idval := by
    apply List.count_pos_iff.mpr
    exact hx ▸ List.mem_map_of_mem (·.account_id) hmem
  rw [hmap, hcount]
  omega

theorem createTransfer_conservation_step (c : Nat) (req : TransferReq) (db : TransferDB)
    (hnd : (db.accounts.map (·.account_id)).Nodup) :
    sumBalances (createTransfer c req db).db + sumFees (createTransfer c req db).db
      = sumBalances db + sumFees db ∧
    ((createTransfer c req db).db.accounts.map (·.account_id)).Nodup := by
  rcases hok : (createTransfer c req db).response with e | row
  · rw [createTransfer_error_db c req db e hok]
    exact ⟨rfl, hnd⟩
  · obtain ⟨fa, ta, hfind, hrec, _, _, _, hneq, hrow, hdb⟩ :=
      createTransfer_ok c req db row hok
    rw [hdb]
    have hfa_mem : fa ∈ db.accounts := List.mem_of_find?_eq_some hfind
    have hfa_id : fa.account_id = req.fromAccountId := by
      have := List.find?_some hfind
      simpa using this
    have hta := recipientAccount_some db req.toUserId ta hrec
    have hcf : db.accounts.countP (fun a => a.account_id == req.fromAccountId) = 1 :=
      countP_account_eq_one _ fa _ hnd hfa_mem hfa_id
    have hct : db.accounts.countP (fun a => a.account_id == ta.account_id) = 1 :=
      countP_account_eq_one _ ta _ hnd hta.1 rfl
    constructor
    · simp only [sumBalances, sumFees, sum_applyTransferBalances _ _ _ _ _ hneq, hcf, hct,
        hrow, List.map_append, List.sum_append, List.map_cons, List.map_nil, List.sum_cons,
        List.sum_nil, Nat.cast_one]
      ring
    · simpa [applyTransferBalances_account_id] using hnd

theorem runTransfers_conservation (reqs : List (Nat × TransferReq)) (db : TransferDB)
    (hnd : (db.accounts.map (·.account_id)).Nodup) :
    sumBalances (runTransfers reqs db) + sumFees (runTransfers reqs db)
      = sumBalances db + sumFees db := by
  induction reqs generalizing db with
  | nil => rfl
  | cons p ps ih =>
      have step := createTransfer_conservation_step p.1 p.2 db hnd
      have hr : runTransfers (p :: ps) db = runTransfers ps (createTransfer p.1 p.2 db).db := rfl
      rw [hr, ih _ step.2, step.1]

theorem find?_applyTransferBalances (fromId toId : Nat) (amt fee : ℚ) (l : List Account)
    (x : Nat) :
    (applyTransferBalances fromId toId amt fee l).find? (fun a => a.account_id == x)
      = (l.find? (fun a => a.account_id == x)).map (updAccount fromId toId amt fee) := by
  unfold applyTransferBalances
  rw [List.find?_map]
  have hfun : ((fun a => a.account_id == x) ∘ updAccount fromId toId amt fee)
      = fun a => a.account_id == x := by
    funext a
    simp [Function.comp, updAccount_account_id]
  rw [hfun]

/-! ### Claim theorems for the transfer subsystem -/

/-- C1: whenever a create-transfer request reaches the balance check (the
same-user, source-lookup, recipient-lookup and ownership guards pass) with
current_balance strictly below amount + feeAmount, the handler rejects with
the insufficient-balance error, creates no transfer row and leaves every
account balance unchanged (the resulting state is the input state); a
balance exactly equal to amount + feeAmount is not rejected by this
check. -/
theorem insufficient_balance_rejection
    (c : Nat) (req : TransferReq) (db : TransferDB) (fa ta : Account)
    (hself : c ≠ req.toUserId)
    (hfind : db.accounts.find? (fun a => a.account_id == req.fromAccountId) = some fa)
    (hrec : recipientAccount db req.toUserId = some ta)
    (hown : fa.user_id = c) :
    (fa.current_balance < req.amount + req.feeAmount →
      (createTransfer c req db).response = .error .insufficientBalance ∧
      (createTransfer c req db).db = db) ∧
    (fa.current_balance = req.amount + req.feeAmount →
      (createTransfer c req db).response ≠ .error .insufficientBalance) := by
  constructor
  · intro hbal
    unfold createTransfer
    rw [hfind, hrec]
    simp [hself, hown, hbal]
  · intro hbal
    have hnlt : ¬fa.current_balance < req.amount + req.feeAmount := by
      rw [hbal]
      exact lt_irrefl _
    unfold createTransfer
    rw [hfind, hrec]
    simp only [hself, hown, hnlt, beq_iff_eq, bne_iff_ne, ne_eq, if_false, if_true,
      not_false_iff, ite_not]
    split <;> simp

def c1db : TransferDB := ⟨[⟨1, 1, 100, true⟩, ⟨5, 2, 20, true⟩], []⟩

theorem insufficient_balance_rejection_witness :
    (createTransfer 1 ⟨1, 2, 96, 5⟩ c1db).response = .error .insufficientBalance ∧
    (createTransfer 1 ⟨1, 2, 96, 5⟩ c1db).db = c1db :=
  (insufficient_balance_rejection 1 ⟨1, 2, 96, 5⟩ c1db ⟨1, 1, 100, true⟩ ⟨5, 2, 20, true⟩
      (by norm_num)
      (by simp [c1db, List.find?])
      (by simp [c1db, recipientAccount, minByAccountId, List.filter])
      rfl).1 (by norm_num)

/-- State used to refute C2: recipient user 2 has the inactive account 5 and
the active account 7. -/
def c2db : TransferDB := ⟨[⟨1, 1, 100, true⟩, ⟨5, 2, 0, false⟩, ⟨7, 2, 0, true⟩], []⟩

/-- C2 counterexample: the recipient-account query has no is_active filter,
so although user 2 owns the active account 7, the handler derives the
inactive account 5 (the lowest account id) as destination and the transfer
succeeds crediting it. -/
theorem destination_ignores_active_flag :
    recipientAccount c2db 2 = some ⟨5, 2, 0, false⟩ ∧
    (createTransfer 1 ⟨1, 2, 10, 0⟩ c2db).response = .ok ⟨1, 5, 10, 0⟩ ∧
    (⟨7, 2, 0, true⟩ : Account) ∈ c2db.accounts ∧
    (∀ a ∈ c2db.accounts, a.account_id = 5 → a.is_active = false) := by
  refine ⟨?_, ?_, ?_, ?_⟩
  · simp [c2db, recipientAccount, minByAccountId, List.filter]
  · have hrec : recipientAccount c2db 2 = some ⟨5, 2, 0, false⟩ := by
      simp [c2db, recipientAccount, minByAccountId, List.filter]
    unfold createTransfer
    rw [hrec]
    norm_num [c2db, List.find?]
  · simp [c2db]
  · intro a ha h5
    simp only [c2db, List.mem_cons, List.not_mem_nil, or_false] at ha
    rcases ha with rfl | rfl | rfl <;> simp_all

/-- C2 amended: the destination account is derived by the handler (the
request has no destination field) as the recipient account row with the
least account id, with no restriction on the is_active flag; it exists as
soon as the recipient owns at least one account, active or not, and every
successful transfer credits exactly that derived account. -/
theorem derived_destination_earliest_any_account (db : TransferDB) (u : Nat) :
    (∀ x, recipientAccount db u = some x →
      x ∈ db.accounts ∧ x.user_id = u ∧
      ∀ b ∈ db.accounts, b.user_id = u → x.account_id ≤ b.account_id) ∧
    ((∃ b ∈ db.accounts, b.user_id = u) → (recipientAccount db u).isSome) ∧
    (∀ c req row, req.toUserId = u → (createTransfer c req db).response = .ok row →
      ∃ x, recipientAccount db u = some x ∧ row.to_account_id = x.account_id) := by
  refine ⟨?_, recipientAccount_isSome db u, ?_⟩
  · intro x hx
    obtain ⟨hmem, huser⟩ := recipientAccount_some db u x hx
    exact ⟨hmem, huser, recipientAccount_min db u x hx⟩
  · intro c req row hu hok
    obtain ⟨fa, ta, _, hrec, _, _, _, _, hrow, _⟩ := createTransfer_ok c req db row hok
    exact ⟨ta, hu ▸ hrec, by rw [hrow]⟩

theorem derived_destination_earliest_any_account_witness :
    (recipientAccount c2db 2).isSome :=
  (derived_destination_earliest_any_account c2db 2).2.1
    ⟨⟨5, 2, 0, false⟩, List.mem_cons_of_mem _ (List.mem_cons_self _ _), rfl⟩

/-- State used to refute C3: caller 1 owns account 1; user 2 owns account 2,
so a request from account 2 to user 2 has source equal to the derived
destination. -/
def c3db : TransferDB := ⟨[⟨1, 1, 0, true⟩, ⟨2, 2, 0, true⟩], []⟩

/-- C3 counterexample: for caller 1 and a request whose source account 2
equals the derived destination account 2, the handler rejects with the
ownership error, not the same-account error: the account half of the
no-self-transfer precondition is not the first guarded failure. -/
theorem same_account_check_not_first :
    recipientAccount c3db 2 = some ⟨2, 2, 0, true⟩ ∧
    (createTransfer 1 ⟨2, 2, 10, 0⟩ c3db).response = .error .notOwner ∧
    (createTransfer 1 ⟨2, 2, 10, 0⟩ c3db).response ≠ .error .sameAccount := by
  have hrec : recipientAccount c3db 2 = some ⟨2, 2, 0, true⟩ := by
    simp [c3db, recipientAccount, minByAccountId, List.filter]
  have hresp : (createTransfer 1 ⟨2, 2, 10, 0⟩ c3db).response = .error .notOwner := rfl
  exact ⟨hrec, hresp, by rw [hresp]; simp⟩

/-- C3 amended: the caller-equals-recipient half of the no-self-transfer
precondition is the first guarded failure, rejecting before any account
lookup, ownership or balance check; the source-equals-destination half is
checked last, and fires only on requests that already passed the ownership
and balance checks. -/
theorem self_transfer_first_same_account_last (c : Nat) (req : TransferReq)
    (db : TransferDB) :
    (c = req.toUserId →
      (createTransfer c req db).response = .error .selfTransferUser ∧
      (createTransfer c req db).db = db) ∧
    ((createTransfer c req db).response = .error .sameAccount →
      ∃ fa, db.accounts.find? (fun a => a.account_id == req.fromAccountId) = some fa ∧
        fa.user_id = c ∧ req.amount + req.feeAmount ≤ fa.current_balance ∧
        c ≠ req.toUserId) := by
  constructor
  · intro h
    unfold createTransfer
    simp [h]
  · intro h
    unfold createTransfer at h
    split at h
    · simp at h
    · rename_i hself
      split at h
      · simp at h
      · simp at h
      · rename_i fa ta hfind hrec
        split at h
        · simp at h
        · rename_i hown
          split at h
          · simp at h
          · rename_i hbal
            split at h
            · exact ⟨fa, hfind, by simpa using hown, le_of_not_lt hbal, by simpa using hself⟩
            · simp at h

theorem self_transfer_first_same_account_last_witness :
    (createTransfer 2 ⟨1, 2, 1000000, 0⟩ c3db).response = .error .selfTransferUser ∧
    (createTransfer 2 ⟨1, 2, 1000000, 0⟩ c3db).db = c3db :=
  (self_transfer_first_same_account_last 2 ⟨1, 2, 1000000, 0⟩ c3db).1 rfl

/-- C4: a successful transfer records the row atomically with the balance
updates: the transfer list is extended by exactly the created row, the
source balance drops by amount + feeAmount, the destination balance grows
by amount; every failed request leaves the state untouched; and over any
sequence of requests against a state with distinct account ids, the sum of
all balances afterwards equals the sum before minus the total fees
collected (recorded fee amounts of the created rows). -/
theorem transfer_atomic_effects_and_conservation :
    (∀ c req db row, (createTransfer c req db).response = .ok row →
      row.amount = req.amount ∧ row.fee_amount = req.feeAmount ∧
      (createTransfer c req db).db.transfers = db.transfers ++ [row] ∧
      getBalance (createTransfer c req db).db row.from_account_id
        = (getBalance db row.from_account_id).map (fun b => b - (req.amount + req.feeAmount)) ∧
      getBalance (createTransfer c req db).db row.to_account_id
        = (getBalance db row.to_account_id).map (fun b => b + req.amount)) ∧
    (∀ c req db e, (createTransfer c req db).response = .error e →
      (createTransfer c req db).db = db) ∧
    (∀ reqs db, (db.accounts.map (·.account_id)).Nodup →
      sumBalances (runTransfers reqs db)
        = sumBalances db - (sumFees (runTransfers reqs db) - sumFees db)) := by
  refine ⟨?_, createTransfer_error_db, ?_⟩
  · intro c req db row hok
    obtain ⟨fa, ta, hfind, hrec, _, _, _, hneq, hrow, hdb⟩ := createTransfer_ok c req db row hok
    have hfa_id : fa.account_id = req.fromAccountId := by
      have := List.find?_some hfind
      simpa using this
    have hta := recipientAccount_some db req.toUserId ta hrec
    refine ⟨by rw [hrow], by rw [hrow], by rw [hdb, hrow], ?_, ?_⟩
    · have hfromid : row.from_account_id = req.fromAccountId := by rw [hrow]
      rw [hdb]
      show getBalance ⟨applyTransferBalances _ _ _ _ _, _⟩ row.from_account_id = _
      unfold getBalance
      rw [hfromid]
      show ((applyTransferBalances req.fromAccountId ta.account_id req.amount req.feeAmount
        db.accounts).find? (fun a => a.account_id == req.fromAccountId)).map
          (·.current_balance) = _
      rw [find?_applyTransferBalances, hfind]
      simp only [Option.map_some']
      rw [updAccount_balance_from _ _ _ _ _ hfa_id]
    · have htoid : row.to_account_id = ta.account_id := by rw [hrow]
      have hsome : (db.accounts.find? (fun a => a.account_id == ta.account_id)).isSome := by
        rw [List.find?_isSome]
        exact ⟨ta, hta.1, by simp⟩
      obtain ⟨tb, htb⟩ := Option.isSome_iff_exists.mp hsome
      have htb_id : tb.account_id = ta.account_id := by
        have := List.find?_some htb
        simpa using this
      have htb_ne : tb.account_id ≠ req.fromAccountId := by
        rw [htb_id]
        exact fun hc => hneq hc.symm
      rw [hdb]
      show getBalance ⟨applyTransferBalances _ _ _ _ _, _⟩ row.to_account_id = _
      unfold getBalance
      rw [htoid]
      show ((applyTransferBalances req.fromAccountId ta.account_id req.amount req.feeAmount
        db.accounts).find? (fun a => a.account_id == ta.account_id)).map
          (·.current_balance) = _
      rw [find?_applyTransferBalances, htb]
      simp only [Option.map_some']
      rw [updAccount_balance_to _ _ _ _ _ htb_id htb_ne]
  · intro reqs db hnd
    have h := runTransfers_conservation reqs db hnd
    linarith

def c4db : TransferDB := ⟨[⟨1, 1, 100, true⟩, ⟨5, 2, 20, true⟩], []⟩

theorem transfer_atomic_effects_and_conservation_witness :
    sumBalances (runTransfers [(1, ⟨1, 2, 60, 5⟩)] c4db)
      = sumBalances c4db
        - (sumFees (runTransfers [(1, ⟨1, 2, 60, 5⟩)] c4db) - sumFees c4db) :=
  transfer_atomic_effects_and_conservation.2.2 [(1, ⟨1, 2, 60, 5⟩)] c4db
    (by simp [c4db])

/-! ## Budget subsystem (src/unnamed/part_005) -/

structure BudgetRow where
  budget_id : Nat
  user_id : Nat
  start_date : Int
  end_date : Int
  total_budget : ℚ
deriving DecidableEq

structure BudgetCategoryRow where
  budget_id : Nat
  category_id : Nat
  allocated_amount : ℚ
deriving DecidableEq

/-- One entry of the categories array of a create-budget request body. -/
structure CatAlloc where
  categoryId : Nat
  allocatedAmount : ℚ
deriving DecidableEq

structure BudgetReq where
  startDate : Int
  endDate : Int
  totalLimit : ℚ
  categories : List CatAlloc
deriving DecidableEq

/-- The budget-side store: the categories table (its primary keys), the
budgets table and the budget_categories table. -/
structure BudgetDB where
  categories : List Nat
  budgets : List BudgetRow
  budget_categories : List BudgetCategoryRow
deriving DecidableEq

inductive BudgetError
  | invalidDateRange
  | allocationExceedsLimit
  | categoryNotFound
deriving DecidableEq

structure BudgetOutcome where
  response : Except BudgetError Nat
  db : BudgetDB

/-- POST /budgets (part_005 lines 211-331): date-range check (line 226),
allocation-sum check (lines 234-240), category-existence check
(lines 255-268: the number of category table rows whose id is among the
requested ids must equal the number of requested ids), then the
create_budget call (line 272) and the insertion of the allocations with
allocatedAmount > 0 (lines 281-294).  The SQL body of the create_budget
stored procedure is not part of the repository source; the insert it
performs is Modelled from the spec: "creates Budget then, for categories
with allocatedAmount > 0, creates BudgetCategory rows". -/
def createBudget (userId newBudgetId : Nat) (req : BudgetReq) (db : BudgetDB) :
    BudgetOutcome :=
  if req.endDate ≤ req.startDate then ⟨.error .invalidDateRange, db⟩
  else
    if req.totalLimit < (req.categories.map (·.allocatedAmount)).sum then
      ⟨.error .allocationExceedsLimit, db⟩
    else
      if 0 < req.categories.length ∧
          (db.categories.filter
            (fun c => (req.categories.map (·.categoryId)).contains c)).length
            ≠ (req.categories.map (·.categoryId)).length then
        ⟨.error .categoryNotFound, db⟩
      else
        ⟨.ok newBudgetId,
         ⟨db.categories,
          db.budgets ++ [⟨newBudgetId, userId, req.startDate, req.endDate, req.totalLimit⟩],
          db.budget_categories
            ++ (req.categories.filter (fun cat => 0 < cat.allocatedAmount)).map
                (fun cat => ⟨newBudgetId, cat.categoryId, cat.allocatedAmount⟩)⟩⟩

theorem filter_contains_length_ne (cats ids : List Nat) (r : Nat)
    (hnd : cats.Nodup) (hr : r ∈ ids) (hnotin : r ∉ cats) :
    (cats.filter (fun c => ids.contains c)).length ≠ ids.length := by
  intro heq
  have hfnd : (cats.filter (fun c => ids.contains c)).Nodup := hnd.filter _
  have hsub : (cats.filter (fun c => ids.contains c)).toFinset ⊆ ids.toFinset := by
    intro x hx
    rw [List.mem_toFinset] at hx ⊢
    have hm := List.mem_filter.mp hx
    simpa using hm.2
  have hrf : r ∉ (cats.filter (fun c => ids.contains c)).toFinset := by
    rw [List.mem_toFinset]
    intro hx
    exact hnotin (List.mem_filter.mp hx).1
  have hcard1 : (insert r (cats.filter (fun c => ids.contains c)).toFinset).card
      = (cats.filter (fun c => ids.contains c)).toFinset.card + 1 :=
    Finset.card_insert_of_not_mem hrf
  have hins : insert r (cats.filter (fun c => ids.contains c)).toFinset ⊆ ids.toFinset := by
    intro x hx
    rcases Finset.mem_insert.mp hx with rfl | hx
    · exact List.mem_toFinset.mpr hr
    · exact hsub hx
  have hcard2 := Finset.card_le_card hins
  have hcard3 : ids.toFinset.card ≤ ids.length := ids.toFinset_card_le
  have hcard4 : (cats.filter (fun c => ids.contains c)).toFinset.card
      = (cats.filter (fun c => ids.contains c)).length :=
    List.toFinset_card_of_nodup hfnd
  omega

/-- C5: a create-budget request in which the allocation sum exceeds the
total limit, or the end date is not strictly after the start date, or some
referenced category id does not exist in the categories table (whose keys
are distinct), is rejected with an error and no Budget or BudgetCategory
row is persisted: the state is returned unchanged. -/
theorem budget_rejected_before_persist
    (userId newBudgetId : Nat) (req : BudgetReq) (db : BudgetDB)
    (hnd : db.categories.Nodup)
    (hbad : req.endDate ≤ req.startDate ∨
      req.totalLimit < (req.categories.map (·.allocatedAmount)).sum ∨
      ∃ cid ∈ req.categories.map (·.categoryId), cid ∉ db.categories) :
    (∃ e, (createBudget userId newBudgetId req db).response = .error e) ∧
    (createBudget userId newBudgetId req db).db = db := by
  unfold createBudget
  by_cases h1 : req.endDate ≤ req.startDate
  · simp [h1]
  · rw [if_neg h1]
    by_cases h2 : req.totalLimit < (req.categories.map (·.allocatedAmount)).sum
    · simp [h2]
    · rw [if_neg h2]
      have h3 : ∃ cid ∈ req.categories.map (·.categoryId), cid ∉ db.categories := by
        rcases hbad with hb | hb | hb
        · exact absurd hb h1
        · exact absurd hb h2
        · exact hb
      obtain ⟨cid, hcid, hcardnot⟩ := h3
      have hlen : 0 < req.categories.length := by
        rcases List.mem_map.mp hcid with ⟨cat, hcat, _⟩
        exact List.length_pos.mpr (List.ne_nil_of_mem hcat)
      have hne := filter_contains_length_ne db.categories
        (req.categories.map (·.categoryId)) cid hnd hcid hcardnot
      rw [if_pos ⟨hlen, hne⟩]
      exact ⟨⟨.categoryNotFound, rfl⟩, rfl⟩

def c5db : BudgetDB := ⟨[1, 2], [], []⟩

theorem budget_rejected_before_persist_witness :
    (createBudget 1 100 ⟨0, 30, 500, [⟨1, 300⟩, ⟨2, 220⟩]⟩ c5db).db = c5db :=
  (budget_rejected_before_persist 1 100 ⟨0, 30, 500, [⟨1, 300⟩, ⟨2, 220⟩]⟩ c5db
    (by decide)
    (Or.inr (Or.inl (by norm_num)))).2

/-! ## Per-category utilization (part_005 lines 194-202 and 552-558) -/

/-- Per-category utilization as the budget detail and analytics endpoints
compute it: (spentAmount / allocatedAmount) * 100 by raw division, with no
guard on allocatedAmount.  A JavaScript float division by zero produces
Infinity (or NaN when the numerator is also zero); the non-finite outcome is
modelled as none, a finite result as some. -/
def utilizationPercentage (spent allocated : ℚ) : Option ℚ :=
  if allocated = 0 then none else some (spent / allocated * 100)

/-- percentUsed of the budget list endpoint (part_005 line 103), which does
guard the zero denominator: total_budget > 0 is tested before dividing, else
0 is returned. -/
def percentUsed (totalSpent totalBudget : ℚ) : ℚ :=
  if 0 < totalBudget then totalSpent / totalBudget * 100 else 0

/-- C6 exhibit: at allocatedAmount = 0 the raw division of the budget detail
and analytics endpoints produces a non-finite utilization that reaches the
response; with a nonzero allocation the value is spent/allocated*100; the
sibling list endpoint guards the same division and returns 0, showing the
guarded behaviour the code itself intends. -/
theorem utilization_division_unguarded :
    utilizationPercentage 50 0 = none ∧
    utilizationPercentage 50 20 = some 250 ∧
    percentUsed 50 0 = 0 := by
  refine ⟨rfl, ?_, ?_⟩
  · rw [utilizationPercentage, if_neg (by norm_num)]
    norm_num
  · rw [percentUsed, if_neg (by norm_num)]

/-! ## Financial health score (src/routes/reports.js lines 404-529) -/

/-- The financial-health score exactly as the handler accumulates it
(reports.js lines 442-499): balance band, expense/income band (only when
monthly income is positive), active-budget band, account-count band. -/
def healthScore (totalBalance monthlyIncome monthlyExpenses : ℚ)
    (activeBudgets accountCount : Nat) : Nat :=
  (if 10000 < totalBalance then 30
   else if 5000 < totalBalance then 20
   else if 1000 < totalBalance then 10
   else 0)
  + (if 0 < monthlyIncome then
      (if monthlyExpenses / monthlyIncome < 1/2 then 30
       else if monthlyExpenses / monthlyIncome < 7/10 then 20
       else if monthlyExpenses / monthlyIncome < 9/10 then 10
       else 0)
     else 0)
  + (if 0 < activeBudgets then 20 else 0)
  + (if 3 ≤ accountCount then 20 else if 2 ≤ accountCount then 10 else 0)

/-- The level label (reports.js lines 502-511). -/
def healthLevel (score : Nat) : String :=
  if 80 ≤ score then "Excellent"
  else if 60 ≤ score then "Good"
  else if 40 ≤ score then "Fair"
  else "Needs Improvement"

/-- Stated from the claim wording: the balance band. -/
def specBalanceScore (b : ℚ) : Nat :=
  if 10000 < b then 30 else if 5000 < b then 20 else if 1000 < b then 10 else 0

/-- Stated from the claim wording: the expense/income band, scored only when
monthly income is positive. -/
def specRatioScore (income expenses : ℚ) : Nat :=
  if 0 < income then
    (if expenses / income < 1/2 then 30
     else if expenses / income < 7/10 then 20
     else if expenses / income < 9/10 then 10
     else 0)
  else 0

/-- Stated from the claim wording: the active-budget band. -/
def specBudgetScore (activeBudgets : Nat) : Nat :=
  if 0 < activeBudgets then 20 else 0

/-- Stated from the claim wording: the account-count band. -/
def specAccountScore (accountCount : Nat) : Nat :=
  if 3 ≤ accountCount then 20 else if 2 ≤ accountCount then 10 else 0

/-- C7: the health score decomposes as the sum of the four independent bands
of the claim, the level label follows the stated thresholds, and the claimed
scenario (balance 12000, income 3000, expenses 1200, one active budget,
three accounts) scores 100 with level Excellent. -/
theorem financial_health_bands (b i e : ℚ) (nb na : Nat) (s : Nat) :
    healthScore b i e nb na
      = specBalanceScore b + specRatioScore i e + specBudgetScore nb + specAccountScore na ∧
    healthLevel s
      = (if 80 ≤ s then "Excellent"
         else if 60 ≤ s then "Good"
         else if 40 ≤ s then "Fair"
         else "Needs Improvement") ∧
    healthScore 12000 3000 1200 1 3 = 100 ∧
    healthLevel (healthScore 12000 3000 1200 1 3) = "Excellent" := by
  refine ⟨rfl, rfl, ?_, ?_⟩
  · norm_num [healthScore]
  · norm_num [healthScore, healthLevel]

/-! ## Summary endpoint error shaping (src/routes/reports.js lines 8-75) -/

/-- The aggregate values the three summary queries return. -/
structure SummaryMetrics where
  total_balance : ℚ
  accounts_count : Nat
  transactions_count : Nat
  total_income : ℚ
  total_expenses : ℚ
  active_budgets_count : Nat
deriving DecidableEq

structure SummaryData where
  totalBalance : ℚ
  totalIncome : ℚ
  totalExpenses : ℚ
  netWorth : ℚ
  accountsCount : Nat
  transactionsCount : Nat
  activeBudgetsCount : Nat
  activeGoalsCount : Nat
deriving DecidableEq

structure SummaryResponse where
  success : Bool
  data : SummaryData
deriving DecidableEq

inductive QueryFailure
  | storeFailure
deriving DecidableEq

/-- The all-zero payload of the catch branch (reports.js lines 61-73). -/
def zeroSummary : SummaryData := ⟨0, 0, 0, 0, 0, 0, 0, 0⟩

/-- GET /reports/summary (reports.js lines 8-75): on success the data is
assembled from the query results with netWorth = income - expenses and the
response carries success true; the catch branch also responds success true,
with every figure defaulted to zero. -/
def summaryHandler (r : Except QueryFailure SummaryMetrics) : SummaryResponse :=
  match r with
  | .ok m =>
      ⟨true, ⟨m.total_balance, m.total_income, m.total_expenses,
        m.total_income - m.total_expenses, m.accounts_count, m.transactions_count,
        m.active_budgets_count, 0⟩⟩
  | .error _ => ⟨true, zeroSummary⟩

/-- Success flag of the create-transfer HTTP response: every error branch of
the handler sends success false (transfers.js lines 224, 260, 269, 287, 296,
304, 367) and the 201 branch sends success true (line 338). -/
def transferResponseSuccess : Except TransferError TransferRow → Bool
  | .ok _ => true
  | .error _ => false

/-- C8 counterexample: a failed aggregate query in GET /reports/summary is
reported as success true with the all-zero default payload, so a failed core
read is converted into a successful response. -/
theorem summary_failure_reported_as_success :
    (summaryHandler (.error .storeFailure)).success = true ∧
    (summaryHandler (.error .storeFailure)).data = zeroSummary := ⟨rfl, rfl⟩

/-- C8 amended: the transfer write path does carry success false on every
failure, but GET /reports/summary responds success true on every input: a
failed aggregate query is swallowed into a success true response populated
with the all-zero defaults. -/
theorem summary_swallows_failure_transfers_report_it :
    (∀ e, transferResponseSuccess (.error e) = false) ∧
    (∀ r, (summaryHandler r).success = true) ∧
    (∀ e, (summaryHandler (.error e)).data = zeroSummary) := by
  refine ⟨fun e => rfl, fun r => ?_, fun e => rfl⟩
  cases r <;> rfl

/-! ## Receipt to transaction (src/unnamed/part_000 lines 117-219) -/

structure Receipt where
  receipt_id : Nat
  user_id : Nat
  transaction_created : Bool
deriving DecidableEq

structure TxnRow where
  user_id : Nat
  account_id : Nat
  category_id : Nat
  amount : ℚ
  receipt_id : Option Nat
deriving DecidableEq

structure ReceiptDB where
  receipts : List Receipt
  transactions : List TxnRow
deriving DecidableEq

inductive ReceiptError
  | receiptNotFound
deriving DecidableEq

structure CreateTxnReq where
  accountId : Nat
  categoryId : Nat
  amount : ℚ
deriving DecidableEq

structure ReceiptOutcome where
  response : Except ReceiptError TxnRow
  db : ReceiptDB

/-- POST /receipts/:receiptId/create-transaction (part_000 lines 117-219):
the only guard queries the receipt by id and owner (lines 161-171) -- the
transaction_created flag is never consulted.  On success a transaction
linked to the receipt is inserted with amount -|amount| and type EXPENSE
(lines 174-180) and the flag is set to true (lines 183-186). -/
def createTransactionFromReceipt (userId receiptId : Nat) (req : CreateTxnReq)
    (db : ReceiptDB) : ReceiptOutcome :=
  match db.receipts.find? (fun r => r.receipt_id == receiptId && r.user_id == userId) with
  | none => ⟨.error .receiptNotFound, db⟩
  | some _ =>
      let txn : TxnRow := ⟨userId, req.accountId, req.categoryId, -|req.amount|, some receiptId⟩
      ⟨.ok txn,
       ⟨db.receipts.map (fun r =>
          if r.receipt_id == receiptId then { r with transaction_created := true } else r),
        db.transactions ++ [txn]⟩⟩

/-- Number of transactions linked to a receipt. -/
def linkedCount (db : ReceiptDB) (receiptId : Nat) : Nat :=
  db.transactions.countP (fun t => t.receipt_id == some receiptId)

def c9db : ReceiptDB :=
  ⟨[⟨1, 1, true⟩], [⟨1, 1, 1, -20, some 1⟩]⟩

/-- C9 counterexample: receipt 1 already has transaction_created = true and
one linked transaction, yet a further create-transaction request succeeds
and a second transaction linked to the same receipt is stored. -/
theorem second_linked_transaction_created :
    ((c9db.receipts.find? (fun r => r.receipt_id == 1)).map (·.transaction_created)
      = some true) ∧
    linkedCount c9db 1 = 1 ∧
    (createTransactionFromReceipt 1 1 ⟨2, 3, 45⟩ c9db).response = .ok ⟨1, 2, 3, -45, some 1⟩ ∧
    linkedCount (createTransactionFromReceipt 1 1 ⟨2, 3, 45⟩ c9db).db 1 = 2 := by
  refine ⟨rfl, rfl, ?_, ?_⟩
  · have habs : -|(45:ℚ)| = -45 := by norm_num
    have hr : (createTransactionFromReceipt 1 1 ⟨2, 3, 45⟩ c9db).response
        = .ok ⟨1, 2, 3, -|(45:ℚ)|, some 1⟩ := rfl
    rw [hr, habs]
  · rfl

/-- C9 amended: the handler sets the transaction_created flag after
inserting but never checks it: whenever the receipt exists and belongs to
the caller -- including when its flag is already true -- the request
succeeds, appends one more transaction linked to the receipt, and the
linked-transaction count grows by one, so one receipt can produce any number
of linked transactions. -/
theorem receipt_flag_never_checked (userId receiptId : Nat) (req : CreateTxnReq)
    (db : ReceiptDB) (r : Receipt)
    (hfind : db.receipts.find? (fun r => r.receipt_id == receiptId && r.user_id == userId)
      = some r) :
    (∃ txn, (createTransactionFromReceipt userId receiptId req db).response = .ok txn ∧
      txn.receipt_id = some receiptId) ∧
    linkedCount (createTransactionFromReceipt userId receiptId req db).db receiptId
      = linkedCount db receiptId + 1 := by
  unfold createTransactionFromReceipt
  rw [hfind]
  refine ⟨⟨_, rfl, rfl⟩, ?_⟩
  simp [linkedCount, List.countP_append]

theorem receipt_flag_never_checked_witness :
    linkedCount (createTransactionFromReceipt 1 1 ⟨2, 3, 45⟩ c9db).db 1
      = linkedCount c9db 1 + 1 :=
  (receipt_flag_never_checked 1 1 ⟨2, 3, 45⟩ c9db ⟨1, 1, true⟩ rfl).2

/-! ## Budget spend aggregation (part_005 lines 58-68, 137-148 and 160-178) -/

inductive TxnType
  | INCOME
  | EXPENSE
deriving DecidableEq

structure LedgerTxn where
  account_id : Nat
  category_id : Nat
  amount : ℚ
  transaction_date : Int
  transaction_type : TxnType
deriving DecidableEq

structure AcctRow where
  account_id : Nat
  user_id : Nat
deriving DecidableEq

structure AggState where
  accounts : List AcctRow
  transactions : List LedgerTxn
  budget_categories : List BudgetCategoryRow
deriving DecidableEq

/-- The JOIN accounts a ON t.account_id = a.account_id ... a.user_id = owner
condition of both subqueries. -/
def ownsAccount (st : AggState) (u aid : Nat) : Bool :=
  st.accounts.any (fun a => a.account_id == aid && a.user_id == u)

/-- The total_spent subquery of the budget list and detail endpoints
(part_005 lines 59-66 and 138-145): SUM(ABS(t.amount)) over ALL transactions
of the budget owner with transaction_type EXPENSE dated within
[start_date, end_date] -- no category restriction appears in the query. -/
def totalSpent (st : AggState) (b : BudgetRow) : ℚ :=
  ((st.transactions.filter (fun t =>
      ownsAccount st b.user_id t.account_id
      && (t.transaction_type == TxnType.EXPENSE)
      && decide (b.start_date ≤ t.transaction_date)
      && decide (t.transaction_date ≤ b.end_date))).map (fun t => |t.amount|)).sum

/-- The per-category spent_amount of the budget detail endpoint (part_005
lines 160-178): COALESCE(SUM(t.amount), 0) over the owner transactions of
the given category, type EXPENSE, dated within the window. -/
def categorySpent (st : AggState) (b : BudgetRow) (catId : Nat) : ℚ :=
  ((st.transactions.filter (fun t =>
      (t.category_id == catId)
      && (t.transaction_type == TxnType.EXPENSE)
      && decide (b.start_date ≤ t.transaction_date)
      && decide (t.transaction_date ≤ b.end_date)
      && ownsAccount st b.user_id t.account_id)).map (·.amount)).sum

/-- Category ids allocated to the budget (the WHERE bc.budget_id = $4 rows of
budget_categories). -/
def allocatedCategoryIds (st : AggState) (b : BudgetRow) : List Nat :=
  (st.budget_categories.filter (fun bc => bc.budget_id == b.budget_id)).map (·.category_id)

def sumCategorySpent (st : AggState) (b : BudgetRow) : ℚ :=
  ((allocatedCategoryIds st b).map (categorySpent st b)).sum

def addTxn (st : AggState) (t : LedgerTxn) : AggState :=
  ⟨st.accounts, st.transactions ++ [t], st.budget_categories⟩

def c10b : BudgetRow := ⟨1, 1, 0, 100, 100⟩

/-- Owner user 1 with account 1; category 10 allocated to budget 1; one
expense of 30 in category 10 and one of 50 in the unallocated category
99, both inside the window. -/
def c10st : AggState :=
  ⟨[⟨1, 1⟩],
   [⟨1, 10, 30, 5, TxnType.EXPENSE⟩, ⟨1, 99, 50, 6, TxnType.EXPENSE⟩],
   [⟨1, 10, 100⟩]⟩

/-- C10: totalSpent counts every owner expense in the budget window, also
one whose category is not allocated to the budget (adding such a
transaction raises totalSpent by its absolute amount while leaving every
per-category spent figure unchanged), so totalSpent can exceed the sum of
the per-category spent amounts, as the concrete state shows: 80 against
30. -/
theorem total_spent_includes_unallocated (st : AggState) (b : BudgetRow) (t : LedgerTxn)
    (hty : t.transaction_type = TxnType.EXPENSE)
    (hd1 : b.start_date ≤ t.transaction_date)
    (hd2 : t.transaction_date ≤ b.end_date)
    (hown : ownsAccount st b.user_id t.account_id = true) :
    (totalSpent (addTxn st t) b = totalSpent st b + |t.amount| ∧
     (t.category_id ∉ allocatedCategoryIds st b →
       sumCategorySpent (addTxn st t) b = sumCategorySpent st b)) ∧
    totalSpent c10st c10b = 80 ∧
    sumCategorySpent c10st c10b = 30 ∧
    sumCategorySpent c10st c10b < totalSpent c10st c10b := by
  have hownadd : ∀ u aid, ownsAccount (addTxn st t) u aid = ownsAccount st u aid :=
    fun _ _ => rfl
  have htrans : (addTxn st t).transactions = st.transactions ++ [t] := rfl
  refine ⟨⟨?_, ?_⟩, ?_, ?_, ?_⟩
  · unfold totalSpent
    simp only [hownadd, htrans]
    rw [List.filter_append]
    have hfil : List.filter (fun tx =>
        ownsAccount st b.user_id tx.account_id
        && (tx.transaction_type == TxnType.EXPENSE)
        && decide (b.start_date ≤ tx.transaction_date)
        && decide (tx.transaction_date ≤ b.end_date)) [t] = [t] := by
      simp [hown, hty, hd1, hd2]
    rw [hfil]
    simp
  · intro hnotalloc
    have halloc : allocatedCategoryIds (addTxn st t) b = allocatedCategoryIds st b := rfl
    unfold sumCategorySpent
    rw [halloc]
    congr 1
    apply List.map_congr_left
    intro c hc
    have hne : t.category_id ≠ c := fun hcc => hnotalloc (hcc ▸ hc)
    unfold categorySpent
    simp only [hownadd, htrans]
    rw [List.filter_append]
    have hfil : List.filter (fun tx =>
        (tx.category_id == c)
        && (tx.transaction_type == TxnType.EXPENSE)
        && decide (b.start_date ≤ tx.transaction_date)
        && decide (tx.transaction_date ≤ b.end_date)
        && ownsAccount st b.user_id tx.account_id) [t] = [] := by
      simp [hne]
    rw [hfil, List.append_nil]
  · norm_num [totalSpent, c10st, c10b, ownsAccount, List.filter]
  · have h99 : (99 == 10) = false := rfl
    norm_num [sumCategorySpent, categorySpent, allocatedCategoryIds, c10st, c10b,
      ownsAccount, List.filter, h99]
  · have h99 : (99 == 10) = false := rfl
    norm_num [totalSpent, sumCategorySpent, categorySpent, allocatedCategoryIds,
      c10st, c10b, ownsAccount, List.filter, h99]

def c10t : LedgerTxn := ⟨1, 77, 20, 7, TxnType.EXPENSE⟩

theorem total_spent_includes_unallocated_witness :
    totalSpent (addTxn c10st c10t) c10b = totalSpent c10st c10b + |c10t.amount| :=
  ((total_spent_includes_unallocated c10st c10b c10t rfl (by decide) (by decide)
      rfl).1).1

end FinT
